import Mathlib

/-!
Verification development for the CablesCustomOps rope simulator.

The repository contains two nearly identical operators: a 3D rope
(`Ops.Local.Custom.Rope3D.js`) and a 2D rope (the unnamed second file).
We shallowly embed the physics core of the 3D variant (state, `initRope`,
`step`, and the frame handler `onTriggered`), plus the lifecycle part of
the 2D variant needed to compare re-seed policies.

Coordinates are modelled as rationals (idealised exact arithmetic in
place of IEEE doubles).  `Math.hypot(dx,dy,dz)` is modelled by an
abstract square-root function applied to `dx*dx+dy*dy+dz*dz`, bundled
with the two properties of the real function that the code relies on:
it sends `0` to `0` and non-negative arguments to non-negative results.
All theorems are universally quantified over this bundle, so they hold
for any square-root model, and concrete evaluations instantiate it.
-/

namespace Rope3D

/-- A 3D point, modelling the `{x, y, z}` position objects of the source. -/
structure V3 where
  x : ℚ
  y : ℚ
  z : ℚ
deriving DecidableEq

/-- Default point used when reading a list out of bounds. -/
def V3.zero : V3 := ⟨0, 0, 0⟩

/-- Abstract model of the square root underlying `Math.hypot`:
a function on rationals together with the two facts about real square
roots that the rope code depends on (`hypot` of the zero vector is `0`,
and `hypot` is never negative). -/
structure SqrtFn where
  f : ℚ → ℚ
  f_zero : f 0 = 0
  f_nonneg : ∀ q, 0 ≤ q → 0 ≤ f q

/-- A concrete instance of `SqrtFn` used to evaluate the development on
concrete inputs.  It agrees with the true square root at `0` and `1`,
the only arguments occurring in the concrete runs below. -/
def sqrtToy : SqrtFn where
  f := fun q => if 0 < q then 1 else 0
  f_zero := by norm_num
  f_nonneg := by
    intro q _
    dsimp only
    split <;> norm_num

/-- The operator parameters read by `initRope` and `step`
(`inSegments`, `inLength`, `inGravity`, `inIter`, `inDamping`),
plus the square-root model. -/
structure Config where
  segments : ℤ
  ropeLength : ℚ
  gravity : ℚ
  iter : ℤ
  damping : ℚ
  sqrt : SqrtFn

/-- The mutable module-level state of the operator: `positions`,
`prevPositions`, `isSleeping`, `sleepCounter`, and the cached last
input values `lastTopX .. lastBottomZ` (all `null` initially and always
written together, hence one `Option`). -/
structure State where
  positions : List V3
  prevPositions : List V3
  isSleeping : Bool
  sleepCounter : ℕ
  lastInputs : Option (V3 × V3)
deriving DecidableEq

/-- `initRope(topX, topY, topZ)`: seeds `n+1` points on a straight line
down from the anchor, `n = Math.max(1, inSegments.get() | 0)`, spaced by
`inLength.get() / n`; previous positions equal current; wakes the rope. -/
def initRope (cfg : Config) (topX topY topZ : ℚ) (st : State) : State :=
  let n : ℤ := max 1 cfg.segments
  let segLen : ℚ := cfg.ropeLength / (n : ℚ)
  let pts : List V3 :=
    (List.range (n.toNat + 1)).map (fun i : ℕ => ⟨topX, topY - segLen * (i : ℚ), topZ⟩)
  { st with
    positions := pts
    prevPositions := pts
    isSleeping := false
    sleepCounter := 0 }

/-- One body execution of the Verlet loop of `step` at index `i`:
reads `positions[i]` and `prevPositions[i]`, computes the damped
velocity, snapshots the previous position, applies velocity plus
gravity (on y only), and updates the running `maxVel`. -/
def verletBody (damping g dt : ℚ) (i : ℕ)
    (s : List V3 × List V3 × ℚ) : List V3 × List V3 × ℚ :=
  let p := s.1.getD i V3.zero
  let pv := s.2.1.getD i V3.zero
  let vx := (p.x - pv.x) * damping
  let vy := (p.y - pv.y) * damping
  let vz := (p.z - pv.z) * damping
  let p2 : V3 := ⟨p.x + vx, p.y + (vy + g * dt * dt), p.z + vz⟩
  let vMag := max (max |vx| |vy|) |vz|
  (s.1.set i p2, s.2.1.set i p, if vMag > s.2.2 then vMag else s.2.2)

/-- The Verlet loop `for (let i = 1; i < n; i++)` of `step`, as a fuel
recursion running the body at indices `i, i+1, ..., i+cnt-1`. -/
def verletAux (damping g dt : ℚ) :
    ℕ → ℕ → (List V3 × List V3 × ℚ) → List V3 × List V3 × ℚ
  | _, 0, s => s
  | i, Nat.succ c, s => verletAux damping g dt (i + 1) c (verletBody damping g dt i s)

/-- One segment of the constraint loop of `step`: segment `i` joins
points `i` and `i+1`; `dist = Math.hypot(dx, dy, dz)`; a zero distance
is skipped; otherwise the correction `(dist - restLen) / dist` is
applied to the neighbour of the anchor (`i == 0`), to the neighbour of
the end point (`i == n-1`), or half to each point. -/
def solveSegment (sq : SqrtFn) (restLen : ℚ) (n i : ℕ) (pos : List V3) : List V3 :=
  let p1 := pos.getD i V3.zero
  let p2 := pos.getD (i + 1) V3.zero
  let dx := p2.x - p1.x
  let dy := p2.y - p1.y
  let dz := p2.z - p1.z
  let dist := sq.f (dx * dx + dy * dy + dz * dz)
  if dist = 0 then pos
  else
    let diff := (dist - restLen) / dist
    if i = 0 then
      pos.set (i + 1) ⟨p2.x - dx * diff, p2.y - dy * diff, p2.z - dz * diff⟩
    else if i = n - 1 then
      pos.set i ⟨p1.x + dx * diff, p1.y + dy * diff, p1.z + dz * diff⟩
    else
      let half := diff * (1 / 2)
      (pos.set i ⟨p1.x + dx * half, p1.y + dy * half, p1.z + dz * half⟩).set (i + 1)
        ⟨p2.x - dx * half, p2.y - dy * half, p2.z - dz * half⟩

/-- The inner constraint loop `for (let i = 0; i < n; i++)`, as a fuel
recursion over segments `i, ..., i+cnt-1`. -/
def passAux (sq : SqrtFn) (restLen : ℚ) (n : ℕ) : ℕ → ℕ → List V3 → List V3
  | _, 0, pos => pos
  | i, Nat.succ c, pos => passAux sq restLen n (i + 1) c (solveSegment sq restLen n i pos)

/-- One full constraint pass: all segments `0 .. n-1` in index order. -/
def constraintPass (sq : SqrtFn) (restLen : ℚ) (n : ℕ) (pos : List V3) : List V3 :=
  passAux sq restLen n 0 n pos

/-- The outer constraint loop `for (let iter = 0; iter < iters; iter++)`. -/
def constraintIter (sq : SqrtFn) (restLen : ℚ) (n : ℕ) : ℕ → List V3 → List V3
  | 0, pos => pos
  | Nat.succ k, pos => constraintIter sq restLen n k (constraintPass sq restLen n pos)

/-- `step(dt, topX, topY, topZ, bottomX, bottomY, bottomZ)` of the 3D
operator: early-outs when the chain has fewer than one segment, pins the
bottom point, runs the Verlet loop over the free points, pins the top
point, runs the constraint iterations, and returns the new `positions`,
`prevPositions` and `maxVel`. -/
def step (cfg : Config) (dt topX topY topZ bottomX bottomY bottomZ : ℚ)
    (pos prev : List V3) : List V3 × List V3 × ℚ :=
  let n := pos.length - 1
  if n < 1 then (pos, prev, 0)
  else
    let restLen := cfg.ropeLength / (n : ℚ)
    let iters := (max 1 cfg.iter).toNat
    let b : V3 := ⟨bottomX, bottomY, bottomZ⟩
    let pos1 := pos.set n b
    let prev1 := prev.set n b
    let r := verletAux cfg.damping cfg.gravity dt 1 (n - 1) (pos1, prev1, 0)
    let t : V3 := ⟨topX, topY, topZ⟩
    let pos2 := r.1.set 0 t
    let prev2 := r.2.1.set 0 t
    (constraintIter cfg.sqrt restLen n iters pos2, prev2, r.2.2)

/-- `INPUT_EPS = 1e-5`. -/
def INPUT_EPS : ℚ := 1 / 100000

/-- `VEL_EPS = 1e-3`. -/
def VEL_EPS : ℚ := 1 / 1000

/-- `SLEEP_FRAMES = 6`. -/
def SLEEP_FRAMES : ℕ := 6

/-- The `inputsMoved` computation of `onTriggered`: true on the very
first frame (`lastTopX === null`) or when any of the six coordinates
moved by more than `INPUT_EPS` since the last frame. -/
def inputsMoved (last : Option (V3 × V3)) (top bottom : V3) : Bool :=
  match last with
  | none => true
  | some (lt, lb) =>
      decide (|top.x - lt.x| > INPUT_EPS) || decide (|top.y - lt.y| > INPUT_EPS) ||
      decide (|top.z - lt.z| > INPUT_EPS) || decide (|bottom.x - lb.x| > INPUT_EPS) ||
      decide (|bottom.y - lb.y| > INPUT_EPS) || decide (|bottom.z - lb.z| > INPUT_EPS)

/-- The output flattening `[x0,y0,z0, x1,y1,z1, ...]`. -/
def flat (pos : List V3) : List ℚ :=
  pos.flatMap (fun p => [p.x, p.y, p.z])

/-- One execution of the `onTriggered` frame handler.  `rawDt` is the
wall-clock delta `(now - lastTime) / 1000` supplied by the environment;
the handler clamps it to `0.05`.  Returns the new state, the frame's
`maxVel` (0 when physics was skipped), and the published flat array. -/
def frame (cfg : Config) (rawDt : ℚ) (top bottom : V3) (st : State) :
    State × ℚ × List ℚ :=
  let dt0 : ℚ := if rawDt > 1 / 20 then 1 / 20 else rawDt
  let moved := inputsMoved st.lastInputs top bottom
  let st1 := { st with lastInputs := some (top, bottom) }
  let st2 := if st1.positions.isEmpty then initRope cfg top.x top.y top.z st1 else st1
  let wake := st2.isSleeping && moved
  let st3 :=
    if wake then
      { st2 with isSleeping := false, sleepCounter := 0, prevPositions := st2.positions }
    else st2
  let dt := if wake then 0 else dt0
  if st3.isSleeping then (st3, 0, flat st3.positions)
  else
    let r := step cfg dt top.x top.y top.z bottom.x bottom.y bottom.z
      st3.positions st3.prevPositions
    let st4 := { st3 with positions := r.1, prevPositions := r.2.1 }
    let st5 :=
      if !moved && decide (r.2.2 < VEL_EPS) then
        if SLEEP_FRAMES ≤ st4.sleepCounter + 1 then
          { st4 with
            sleepCounter := st4.sleepCounter + 1
            isSleeping := true
            prevPositions := st4.positions }
        else { st4 with sleepCounter := st4.sleepCounter + 1 }
      else { st4 with sleepCounter := 0 }
    (st5, r.2.2, flat st5.positions)

/-- Iterating the frame handler over a list of per-frame inputs
`(rawDt, top, bottom)`. -/
def runFrames (cfg : Config) : List (ℚ × V3 × V3) → State → State
  | [], st => st
  | f :: l, st => runFrames cfg l (frame cfg f.1 f.2.1 f.2.2 st).1

/-- A run of frames is "still" when on each frame the inputs have not
moved beyond `INPUT_EPS` since the previous frame and the frame's
returned max velocity is below `VEL_EPS`. -/
def stillRun (cfg : Config) : State → List (ℚ × V3 × V3) → Bool
  | _, [] => true
  | st, f :: l =>
      !inputsMoved st.lastInputs f.2.1 f.2.2 &&
      decide ((frame cfg f.1 f.2.1 f.2.2 st).2.1 < VEL_EPS) &&
      stillRun cfg (frame cfg f.1 f.2.1 f.2.2 st).1 l

/-- A run of frames on which the inputs never move beyond `INPUT_EPS`. -/
def unmovedRun (cfg : Config) : State → List (ℚ × V3 × V3) → Bool
  | _, [] => true
  | st, f :: l =>
      !inputsMoved st.lastInputs f.2.1 f.2.2 &&
      unmovedRun cfg (frame cfg f.1 f.2.1 f.2.2 st).1 l

/-- The 3D `inTopX.onChange` handler (identical to the `inTopY`,
`inTopZ`, `inSegments`, and `inLength` handlers): re-seeds the rope from
the current top input values. -/
def onChangeTop (cfg : Config) (topX topY topZ : ℚ) (st : State) : State :=
  initRope cfg topX topY topZ st

/-- Componentwise sum, used to phrase the spec-side constraint rule. -/
def V3.add (a b : V3) : V3 := ⟨a.x + b.x, a.y + b.y, a.z + b.z⟩

/-- Componentwise difference. -/
def V3.sub (a b : V3) : V3 := ⟨a.x - b.x, a.y - b.y, a.z - b.z⟩

/-- Scalar multiple. -/
def V3.smul (c : ℚ) (a : V3) : V3 := ⟨c * a.x, c * a.y, c * a.z⟩

/-- The implicit velocity of the spec's motion-update description:
`v = (current - previous) * damping`, per axis. -/
def vVec (damping : ℚ) (p pv : V3) : V3 :=
  ⟨(p.x - pv.x) * damping, (p.y - pv.y) * damping, (p.z - pv.z) * damping⟩

/-- The largest absolute per-axis component of a velocity vector. -/
def vMag3 (v : V3) : ℚ := max (max |v.x| |v.y|) |v.z|

/-- The velocity magnitude contributed by point `i` of a pre-loop state. -/
def windowVMag (damping : ℚ) (pos prev : List V3) (i : ℕ) : ℚ :=
  vMag3 (vVec damping (pos.getD i V3.zero) (prev.getD i V3.zero))

/-- The spec's description of the motion update of one free point:
add the implicit velocity on every axis and `gravity * dt^2` on the y
axis only. -/
def verletSpecPoint (damping g dt : ℚ) (p pv : V3) : V3 :=
  let v := vVec damping p pv
  ⟨p.x + v.x, p.y + (v.y + g * dt * dt), p.z + v.z⟩

/-- The constraint-segment rule as the spec states it: with `delta` the
vector from point `i` to point `i+1` and positive distance `dist`, the
correction factor is `(dist - restLength) / dist`; segment `0` displaces
only point `i+1` by the full correction, segment `n-1` displaces only
point `i`, and interior segments displace both points by half the
correction in opposite directions. -/
def solveSegmentSpec (sq : SqrtFn) (restLen : ℚ) (n i : ℕ) (pos : List V3) : List V3 :=
  let p1 := pos.getD i V3.zero
  let p2 := pos.getD (i + 1) V3.zero
  let delta := V3.sub p2 p1
  let dist := sq.f (delta.x * delta.x + delta.y * delta.y + delta.z * delta.z)
  if 0 < dist then
    let corr := (dist - restLen) / dist
    if i = 0 then pos.set (i + 1) (V3.sub p2 (V3.smul corr delta))
    else if i = n - 1 then pos.set i (V3.add p1 (V3.smul corr delta))
    else
      (pos.set i (V3.add p1 (V3.smul (corr * (1 / 2)) delta))).set (i + 1)
        (V3.sub p2 (V3.smul (corr * (1 / 2)) delta))
  else pos

/-- A concrete 2-segment configuration used to evaluate the theorems on
concrete inputs: length 2, no gravity, one constraint pass, damping 0. -/
def cfgTest : Config :=
  { segments := 2, ropeLength := 2, gravity := 0, iter := 1, damping := 0, sqrt := sqrtToy }

/-- The settled 2-segment chain of `cfgTest`: anchor at the origin, end
two units below, segment length 1. -/
def chainTest : List V3 := [⟨0, 0, 0⟩, ⟨0, -1, 0⟩, ⟨0, -2, 0⟩]

/-- An awake state holding `chainTest` at rest with matching cached inputs. -/
def stTest : State :=
  { positions := chainTest, prevPositions := chainTest, isSleeping := false,
    sleepCounter := 0, lastInputs := some (⟨0, 0, 0⟩, ⟨0, -2, 0⟩) }

/-- A one-segment configuration (length 2, one constraint pass). -/
def cfgOne : Config :=
  { segments := 1, ropeLength := 2, gravity := 0, iter := 1, damping := 1, sqrt := sqrtToy }

/-- An asleep state holding `chainTest` with matching cached inputs. -/
def stAsleepTest : State :=
  { positions := chainTest, prevPositions := chainTest, isSleeping := true,
    sleepCounter := 6, lastInputs := some (⟨0, 0, 0⟩, ⟨0, -2, 0⟩) }

end Rope3D

namespace Rope2D

/-- A 2D point, modelling the `{x, y}` position objects of the 2D rope. -/
structure V2 where
  x : ℚ
  y : ℚ
deriving DecidableEq

/-- The parameters of the 2D operator read by its `initRope`. -/
structure Config2 where
  segments : ℤ
  ropeLength : ℚ

/-- The 2D operator state relevant to the lifecycle operations. -/
structure State2 where
  positions : List V2
  prevPositions : List V2
  isSleeping : Bool
  sleepCounter : ℕ
deriving DecidableEq

/-- The 2D `initRope(topX, topY)`: same straight-line seeding as the 3D
variant, without a z coordinate. -/
def initRope (cfg : Config2) (topX topY : ℚ) (st : State2) : State2 :=
  let n : ℤ := max 1 cfg.segments
  let segLen : ℚ := cfg.ropeLength / (n : ℚ)
  let pts : List V2 :=
    (List.range (n.toNat + 1)).map (fun i : ℕ => ⟨topX, topY - segLen * (i : ℚ)⟩)
  { st with
    positions := pts
    prevPositions := pts
    isSleeping := false
    sleepCounter := 0 }

/-- The 2D `inTopX.onChange` handler: reads the current top inputs and
calls `initRope` (the `inTopY` handler is identical). -/
def onChangeTopX (cfg : Config2) (topX topY : ℚ) (st : State2) : State2 :=
  initRope cfg topX topY st

/-- The 2D `inTopY.onChange` handler. -/
def onChangeTopY (cfg : Config2) (topX topY : ℚ) (st : State2) : State2 :=
  initRope cfg topX topY st

/-- The 2D `inSegments.onChange` handler. -/
def onChangeSegments (cfg : Config2) (topX topY : ℚ) (st : State2) : State2 :=
  initRope cfg topX topY st

/-- The 2D `inLength.onChange` handler. -/
def onChangeLength (cfg : Config2) (topX topY : ℚ) (st : State2) : State2 :=
  initRope cfg topX topY st

end Rope2D

namespace Rope3D

theorem getD_set_ne {l : List V3} {i j : ℕ} (h : i ≠ j) (v d : V3) :
    (l.set i v).getD j d = l.getD j d := by
  simp [List.getD_eq_getElem?_getD, List.getElem?_set_ne h]

theorem getD_set_self {l : List V3} {i : ℕ} (h : i < l.length) (v d : V3) :
    (l.set i v).getD i d = v := by
  simp [List.getD_eq_getElem?_getD, List.getElem?_set_self h]

theorem verletBody_length (damping g dt : ℚ) (i : ℕ) (s : List V3 × List V3 × ℚ) :
    (verletBody damping g dt i s).1.length = s.1.length ∧
    (verletBody damping g dt i s).2.1.length = s.2.1.length := by
  simp [verletBody]

theorem verletAux_length (damping g dt : ℚ) :
    ∀ (cnt i : ℕ) (s : List V3 × List V3 × ℚ),
      (verletAux damping g dt i cnt s).1.length = s.1.length ∧
      (verletAux damping g dt i cnt s).2.1.length = s.2.1.length := by
  intro cnt
  induction cnt with
  | zero => intro i s; simp [verletAux]
  | succ c ih =>
      intro i s
      have hb := verletBody_length damping g dt i s
      have hr := ih (i + 1) (verletBody damping g dt i s)
      simp only [verletAux]
      exact ⟨hr.1.trans hb.1, hr.2.trans hb.2⟩

theorem solveSegment_length (sq : SqrtFn) (restLen : ℚ) (n i : ℕ) (pos : List V3) :
    (solveSegment sq restLen n i pos).length = pos.length := by
  simp only [solveSegment]
  split_ifs <;> simp

theorem passAux_length (sq : SqrtFn) (restLen : ℚ) (n : ℕ) :
    ∀ (cnt i : ℕ) (pos : List V3),
      (passAux sq restLen n i cnt pos).length = pos.length := by
  intro cnt
  induction cnt with
  | zero => intro i pos; simp [passAux]
  | succ c ih =>
      intro i pos
      simp only [passAux]
      exact (ih (i + 1) _).trans (solveSegment_length sq restLen n i pos)

theorem constraintIter_length (sq : SqrtFn) (restLen : ℚ) (n : ℕ) :
    ∀ (k : ℕ) (pos : List V3),
      (constraintIter sq restLen n k pos).length = pos.length := by
  intro k
  induction k with
  | zero => intro pos; simp [constraintIter]
  | succ k ih =>
      intro pos
      simp only [constraintIter]
      exact (ih _).trans (passAux_length sq restLen n n 0 pos)

theorem solveSegment_getD_zero (sq : SqrtFn) (restLen : ℚ) (n i : ℕ) (pos : List V3)
    (d : V3) : (solveSegment sq restLen n i pos).getD 0 d = pos.getD 0 d := by
  simp only [solveSegment]
  split_ifs with hd h0 hn1
  · rfl
  · exact getD_set_ne (Nat.succ_ne_zero i) _ _
  · exact getD_set_ne h0 _ _
  · rw [getD_set_ne (Nat.succ_ne_zero i), getD_set_ne h0]

theorem solveSegment_getD_last (sq : SqrtFn) (restLen : ℚ) (n i : ℕ) (pos : List V3)
    (d : V3) (hn : 2 ≤ n) (hi : i < n) :
    (solveSegment sq restLen n i pos).getD n d = pos.getD n d := by
  simp only [solveSegment]
  split_ifs with hd h0 hn1
  · rfl
  · exact getD_set_ne (by omega) _ _
  · exact getD_set_ne (by omega) _ _
  · rw [getD_set_ne (by omega), getD_set_ne (by omega)]

theorem passAux_getD_zero (sq : SqrtFn) (restLen : ℚ) (n : ℕ) :
    ∀ (cnt i : ℕ) (pos : List V3) (d : V3),
      (passAux sq restLen n i cnt pos).getD 0 d = pos.getD 0 d := by
  intro cnt
  induction cnt with
  | zero => intro i pos d; rfl
  | succ c ih =>
      intro i pos d
      simp only [passAux]
      rw [ih, solveSegment_getD_zero]

theorem passAux_getD_last (sq : SqrtFn) (restLen : ℚ) (n : ℕ) (hn : 2 ≤ n) :
    ∀ (cnt i : ℕ) (pos : List V3) (d : V3), i + cnt ≤ n →
      (passAux sq restLen n i cnt pos).getD n d = pos.getD n d := by
  intro cnt
  induction cnt with
  | zero => intro i pos d _; rfl
  | succ c ih =>
      intro i pos d h
      simp only [passAux]
      rw [ih (i + 1) _ d (by omega),
        solveSegment_getD_last sq restLen n i pos d hn (by omega)]

theorem constraintIter_getD_zero (sq : SqrtFn) (restLen : ℚ) (n : ℕ) :
    ∀ (k : ℕ) (pos : List V3) (d : V3),
      (constraintIter sq restLen n k pos).getD 0 d = pos.getD 0 d := by
  intro k
  induction k with
  | zero => intro pos d; rfl
  | succ k ih =>
      intro pos d
      simp only [constraintIter, constraintPass]
      rw [ih, passAux_getD_zero]

theorem constraintIter_getD_last (sq : SqrtFn) (restLen : ℚ) (n : ℕ) (hn : 2 ≤ n) :
    ∀ (k : ℕ) (pos : List V3) (d : V3),
      (constraintIter sq restLen n k pos).getD n d = pos.getD n d := by
  intro k
  induction k with
  | zero => intro pos d; rfl
  | succ k ih =>
      intro pos d
      simp only [constraintIter, constraintPass]
      rw [ih, passAux_getD_last sq restLen n hn n 0 pos d (by omega)]

theorem verletAux_getD_out (damping g dt : ℚ) :
    ∀ (cnt i : ℕ) (s : List V3 × List V3 × ℚ) (j : ℕ) (d : V3),
      j < i ∨ i + cnt ≤ j →
      (verletAux damping g dt i cnt s).1.getD j d = s.1.getD j d ∧
      (verletAux damping g dt i cnt s).2.1.getD j d = s.2.1.getD j d := by
  intro cnt
  induction cnt with
  | zero => intro i s j d _; exact ⟨rfl, rfl⟩
  | succ c ih =>
      intro i s j d hj
      have hr := ih (i + 1) (verletBody damping g dt i s) j d (by omega)
      simp only [verletAux]
      rw [hr.1, hr.2]
      simp only [verletBody]
      exact ⟨getD_set_ne (by omega) _ _, getD_set_ne (by omega) _ _⟩

theorem step_pins (cfg : Config) (dt tX tY tZ bX bY bZ : ℚ) (pos prev : List V3)
    (hn : 1 ≤ pos.length - 1) :
    (step cfg dt tX tY tZ bX bY bZ pos prev).1.getD 0 V3.zero = ⟨tX, tY, tZ⟩ ∧
    (2 ≤ pos.length - 1 →
      (step cfg dt tX tY tZ bX bY bZ pos prev).1.getD (pos.length - 1) V3.zero =
        ⟨bX, bY, bZ⟩) := by
  have hlen2 : 2 ≤ pos.length := by omega
  simp only [step]
  rw [if_neg (by omega)]
  constructor
  · rw [constraintIter_getD_zero]
    have hl : 0 < (verletAux cfg.damping cfg.gravity dt 1 (pos.length - 1 - 1)
        (pos.set (pos.length - 1) ⟨bX, bY, bZ⟩,
          prev.set (pos.length - 1) ⟨bX, bY, bZ⟩, 0)).1.length := by
      rw [(verletAux_length cfg.damping cfg.gravity dt _ _ _).1]
      simp only [List.length_set]
      omega
    exact getD_set_self hl _ _
  · intro h2
    rw [constraintIter_getD_last _ _ _ h2, getD_set_ne (by omega),
      (verletAux_getD_out cfg.damping cfg.gravity dt (pos.length - 1 - 1) 1 _ _ _
        (by omega)).1]
    exact getD_set_self (by omega) _ _

theorem step_length (cfg : Config) (dt tX tY tZ bX bY bZ : ℚ) (pos prev : List V3) :
    (step cfg dt tX tY tZ bX bY bZ pos prev).1.length = pos.length ∧
    (step cfg dt tX tY tZ bX bY bZ pos prev).2.1.length = prev.length := by
  simp only [step]
  split_ifs with h
  · exact ⟨rfl, rfl⟩
  · have hv := verletAux_length cfg.damping cfg.gravity dt (pos.length - 1 - 1) 1
      (pos.set (pos.length - 1) ⟨bX, bY, bZ⟩, prev.set (pos.length - 1) ⟨bX, bY, bZ⟩, 0)
    constructor
    · rw [constraintIter_length]
      simp [hv.1]
    · simp [hv.2]

end Rope3D

/-- C1 (amended): after every `step` on a chain with at least one
segment, point `0` equals the supplied anchor position exactly; when the
chain has at least two segments, point `N` also equals the supplied end
position exactly.  (For `segmentCount = 1`, `step` completes without
error and still pins the anchor, but the single constraint segment takes
the `i == 0` branch and may displace point `N` away from the supplied
end position — see the counterexample.) -/
theorem spec_C1_pinning_amended (cfg : Rope3D.Config) (dt tX tY tZ bX bY bZ : ℚ)
    (pos prev : List Rope3D.V3) (hn : 1 ≤ pos.length - 1) :
    (Rope3D.step cfg dt tX tY tZ bX bY bZ pos prev).1.getD 0 Rope3D.V3.zero =
      ⟨tX, tY, tZ⟩ ∧
    (2 ≤ pos.length - 1 →
      (Rope3D.step cfg dt tX tY tZ bX bY bZ pos prev).1.getD (pos.length - 1)
        Rope3D.V3.zero = ⟨bX, bY, bZ⟩) :=
  Rope3D.step_pins cfg dt tX tY tZ bX bY bZ pos prev hn

/-- Witness for C1 (amended) on the concrete 2-segment chain. -/
theorem spec_C1_pinning_amended_witness :
    (Rope3D.step Rope3D.cfgTest 0 0 0 0 0 (-2) 0 Rope3D.chainTest
        Rope3D.chainTest).1.getD 0 Rope3D.V3.zero = ⟨0, 0, 0⟩ ∧
    (2 ≤ Rope3D.chainTest.length - 1 →
      (Rope3D.step Rope3D.cfgTest 0 0 0 0 0 (-2) 0 Rope3D.chainTest
          Rope3D.chainTest).1.getD (Rope3D.chainTest.length - 1) Rope3D.V3.zero =
        ⟨0, -2, 0⟩) := by
  have h := spec_C1_pinning_amended Rope3D.cfgTest 0 0 0 0 0 (-2) 0 Rope3D.chainTest
    Rope3D.chainTest (by decide)
  exact ⟨h.1, h.2⟩

/-- C1 counterexample: with a single segment (`N = 1`, rest length 2,
one constraint pass), supplying end position `(1, 0, 0)` leaves point
`N` at `(2, 0, 0)` after `step`: the single segment takes the anchor
(`i == 0`) branch of the solver and displaces the end point, so the
claim that point `N` equals the supplied end position for
`segmentCount = 1` is false. -/
theorem spec_C1_counterexample :
    ¬ ((Rope3D.step Rope3D.cfgOne 0 0 0 0 1 0 0 [⟨0, 0, 0⟩, ⟨1, 0, 0⟩]
          [⟨0, 0, 0⟩, ⟨1, 0, 0⟩]).1.getD 1 Rope3D.V3.zero = ⟨1, 0, 0⟩) := by
  norm_num [Rope3D.step, Rope3D.verletAux, Rope3D.verletBody, Rope3D.constraintIter,
    Rope3D.constraintPass, Rope3D.passAux, Rope3D.solveSegment, Rope3D.sqrtToy,
    Rope3D.cfgOne, Rope3D.V3.zero, Rope3D.V3.mk.injEq]

/-- C2: on a chain with at least two segments no constraint-solver
action displaces point `0` or point `N`: each single segment update
preserves both endpoints, every number of full passes preserves both
endpoints, and consequently `step` returns with point `0` at the
supplied anchor position and point `N` at the supplied end position. -/
theorem spec_C2_solver_never_displaces_endpoints (n : ℕ) (hn : 2 ≤ n) :
    (∀ (sq : Rope3D.SqrtFn) (restLen : ℚ) (i : ℕ) (pos : List Rope3D.V3)
        (d : Rope3D.V3), i < n →
        (Rope3D.solveSegment sq restLen n i pos).getD 0 d = pos.getD 0 d ∧
        (Rope3D.solveSegment sq restLen n i pos).getD n d = pos.getD n d) ∧
    (∀ (sq : Rope3D.SqrtFn) (restLen : ℚ) (k : ℕ) (pos : List Rope3D.V3)
        (d : Rope3D.V3),
        (Rope3D.constraintIter sq restLen n k pos).getD 0 d = pos.getD 0 d ∧
        (Rope3D.constraintIter sq restLen n k pos).getD n d = pos.getD n d) ∧
    (∀ (cfg : Rope3D.Config) (dt tX tY tZ bX bY bZ : ℚ) (pos prev : List Rope3D.V3),
        pos.length = n + 1 →
        (Rope3D.step cfg dt tX tY tZ bX bY bZ pos prev).1.getD 0 Rope3D.V3.zero =
          ⟨tX, tY, tZ⟩ ∧
        (Rope3D.step cfg dt tX tY tZ bX bY bZ pos prev).1.getD n Rope3D.V3.zero =
          ⟨bX, bY, bZ⟩) := by
  refine ⟨?_, ?_, ?_⟩
  · intro sq restLen i pos d hi
    exact ⟨Rope3D.solveSegment_getD_zero sq restLen n i pos d,
      Rope3D.solveSegment_getD_last sq restLen n i pos d hn hi⟩
  · intro sq restLen k pos d
    exact ⟨Rope3D.constraintIter_getD_zero sq restLen n k pos d,
      Rope3D.constraintIter_getD_last sq restLen n hn k pos d⟩
  · intro cfg dt tX tY tZ bX bY bZ pos prev hlen
    have h := Rope3D.step_pins cfg dt tX tY tZ bX bY bZ pos prev (by omega)
    have hn2 : pos.length - 1 = n := by omega
    exact ⟨h.1, by rw [← hn2]; exact h.2 (by omega)⟩

/-- Witness for C2 on the concrete 2-segment chain. -/
theorem spec_C2_solver_never_displaces_endpoints_witness :
    (Rope3D.step Rope3D.cfgTest 0 0 0 0 0 (-2) 0 Rope3D.chainTest
        Rope3D.chainTest).1.getD 0 Rope3D.V3.zero = ⟨0, 0, 0⟩ ∧
    (Rope3D.step Rope3D.cfgTest 0 0 0 0 0 (-2) 0 Rope3D.chainTest
        Rope3D.chainTest).1.getD 2 Rope3D.V3.zero = ⟨0, -2, 0⟩ :=
  (spec_C2_solver_never_displaces_endpoints 2 (by norm_num)).2.2 Rope3D.cfgTest
    0 0 0 0 0 (-2) 0 Rope3D.chainTest Rope3D.chainTest (by decide)

/-- C7 counterexample: in the 2D variant, changing only the anchor
(top) input re-seeds the chain: the `inTopX.onChange` handler replaces a
bent 2-point chain by the straight-line seed, contradicting the claim
that the 2D variant re-seeds only on segment-count and total-length
changes. -/
theorem spec_C7_counterexample :
    ¬ ((Rope2D.onChangeTopX { segments := 1, ropeLength := 2 } 0 0
        { positions := [⟨5, 5⟩, ⟨7, 9⟩], prevPositions := [⟨5, 5⟩, ⟨7, 9⟩],
          isSleeping := false, sleepCounter := 0 }).positions = [⟨5, 5⟩, ⟨7, 9⟩]) := by
  norm_num [Rope2D.onChangeTopX, Rope2D.initRope, Rope2D.V2.mk.injEq,
    List.range_succ]

/-- C7 (amended): in the 2D variant, exactly as in the 3D variant,
changing any anchor (top) coordinate triggers a re-seed of the chain:
the top-change handlers replace the chain by the straight-line seed
(discarding the previous chain entirely) and coincide with the
segment-count and total-length change handlers. -/
theorem spec_C7_amended :
    (∀ (cfg : Rope2D.Config2) (tX tY : ℚ) (st : Rope2D.State2) (i : ℕ),
        i < (max 1 cfg.segments).toNat + 1 →
        (Rope2D.onChangeTopX cfg tX tY st).positions.getD i ⟨0, 0⟩ =
          ⟨tX, tY - cfg.ropeLength / ((max 1 cfg.segments : ℤ) : ℚ) * (i : ℚ)⟩) ∧
    (∀ (cfg : Rope2D.Config2) (tX tY : ℚ) (st : Rope2D.State2),
        Rope2D.onChangeTopX cfg tX tY st = Rope2D.onChangeTopY cfg tX tY st ∧
        Rope2D.onChangeTopX cfg tX tY st = Rope2D.onChangeSegments cfg tX tY st ∧
        Rope2D.onChangeTopX cfg tX tY st = Rope2D.onChangeLength cfg tX tY st) ∧
    (∀ (cfg : Rope3D.Config) (tX tY tZ : ℚ) (st : Rope3D.State) (i : ℕ),
        i < (max 1 cfg.segments).toNat + 1 →
        (Rope3D.onChangeTop cfg tX tY tZ st).positions.getD i Rope3D.V3.zero =
          ⟨tX, tY - cfg.ropeLength / ((max 1 cfg.segments : ℤ) : ℚ) * (i : ℚ), tZ⟩) := by
  refine ⟨?_, ?_, ?_⟩
  · intro cfg tX tY st i hi
    simp only [Rope2D.onChangeTopX, Rope2D.initRope, List.getD_eq_getElem?_getD,
      List.getElem?_map, List.getElem?_range hi, Option.map_some', Option.getD_some]
  · intro cfg tX tY st
    exact ⟨rfl, rfl, rfl⟩
  · intro cfg tX tY tZ st i hi
    simp only [Rope3D.onChangeTop, Rope3D.initRope, List.getD_eq_getElem?_getD,
      List.getElem?_map, List.getElem?_range hi, Option.map_some', Option.getD_some]

/-- Witness for C7 (amended): the 2D top-change handler turns the bent
chain of the counterexample into the straight-line seed. -/
theorem spec_C7_amended_witness :
    (Rope2D.onChangeTopX { segments := 1, ropeLength := 2 } 0 0
        { positions := [⟨5, 5⟩, ⟨7, 9⟩], prevPositions := [⟨5, 5⟩, ⟨7, 9⟩],
          isSleeping := false, sleepCounter := 0 }).positions.getD 1 ⟨0, 0⟩ =
      ⟨0, 0 - 2 / ((max 1 (1 : ℤ) : ℤ) : ℚ) * ((1 : ℕ) : ℚ)⟩ :=
  spec_C7_amended.1 { segments := 1, ropeLength := 2 } 0 0
    { positions := [⟨5, 5⟩, ⟨7, 9⟩], prevPositions := [⟨5, 5⟩, ⟨7, 9⟩],
      isSleeping := false, sleepCounter := 0 } 1 (by decide)

/-- C8: a segment whose two points exactly coincide is skipped by the
constraint solver: with `dx = dy = dz = 0` the modelled `Math.hypot`
argument is `0`, the square-root model sends it to `0`, the `if (!dist)
continue` guard fires, and the segment leaves the position list
unchanged (in particular no correction is divided by the zero
distance). -/
theorem spec_C8_zero_distance_skipped (sq : Rope3D.SqrtFn) (restLen : ℚ) (n i : ℕ)
    (pos : List Rope3D.V3)
    (h : pos.getD i Rope3D.V3.zero = pos.getD (i + 1) Rope3D.V3.zero) :
    Rope3D.solveSegment sq restLen n i pos = pos := by
  have h2 : pos[i]?.getD Rope3D.V3.zero = pos[i + 1]?.getD Rope3D.V3.zero := by
    simpa [List.getD_eq_getElem?_getD] using h
  simp [Rope3D.solveSegment, List.getD_eq_getElem?_getD, h2, sq.f_zero]

/-- Witness for C8 at a concrete chain whose first two points coincide. -/
theorem spec_C8_zero_distance_skipped_witness :
    Rope3D.solveSegment Rope3D.sqrtToy 1 2 0
      [⟨1, 1, 1⟩, ⟨1, 1, 1⟩, ⟨0, 0, 0⟩] = [⟨1, 1, 1⟩, ⟨1, 1, 1⟩, ⟨0, 0, 0⟩] :=
  spec_C8_zero_distance_skipped Rope3D.sqrtToy 1 2 0 _ (by decide)

/-- C10: the chain topology is preserved: `initRope` builds exactly
`clampedSegments + 1` points in both sequences, and `step` never adds or
removes points from either sequence. -/
theorem spec_C10_topology :
    (∀ (cfg : Rope3D.Config) (tX tY tZ : ℚ) (st : Rope3D.State),
        (Rope3D.initRope cfg tX tY tZ st).positions.length = (max 1 cfg.segments).toNat + 1 ∧
        (Rope3D.initRope cfg tX tY tZ st).prevPositions.length =
          (max 1 cfg.segments).toNat + 1) ∧
    (∀ (cfg : Rope3D.Config) (dt tX tY tZ bX bY bZ : ℚ) (pos prev : List Rope3D.V3),
        (Rope3D.step cfg dt tX tY tZ bX bY bZ pos prev).1.length = pos.length ∧
        (Rope3D.step cfg dt tX tY tZ bX bY bZ pos prev).2.1.length = prev.length) := by
  constructor
  · intro cfg tX tY tZ st
    constructor <;> simp only [Rope3D.initRope, List.length_map, List.length_range]
  · intro cfg dt tX tY tZ bX bY bZ pos prev
    exact Rope3D.step_length cfg dt tX tY tZ bX bY bZ pos prev

/-- C9: `initRope` replaces both sequences with `n+1` points on a
straight line from the anchor along the negative y axis, spaced by
`ropeLength / n` with `n` the segment count clamped below to `1`;
previous equals current, the sleep flag is reset to awake and the
counter to `0`; and re-seeding a second time with identical arguments
yields the identical state. -/
theorem spec_C9_initRope (cfg : Rope3D.Config) (tX tY tZ : ℚ) (st : Rope3D.State) :
    (Rope3D.initRope cfg tX tY tZ st).positions.length = (max 1 cfg.segments).toNat + 1 ∧
    (∀ i, i < (max 1 cfg.segments).toNat + 1 →
      (Rope3D.initRope cfg tX tY tZ st).positions.getD i Rope3D.V3.zero =
        ⟨tX, tY - cfg.ropeLength / ((max 1 cfg.segments : ℤ) : ℚ) * (i : ℚ), tZ⟩) ∧
    (Rope3D.initRope cfg tX tY tZ st).prevPositions =
      (Rope3D.initRope cfg tX tY tZ st).positions ∧
    (Rope3D.initRope cfg tX tY tZ st).isSleeping = false ∧
    (Rope3D.initRope cfg tX tY tZ st).sleepCounter = 0 ∧
    Rope3D.initRope cfg tX tY tZ (Rope3D.initRope cfg tX tY tZ st) =
      Rope3D.initRope cfg tX tY tZ st := by
  refine ⟨by simp only [Rope3D.initRope, List.length_map, List.length_range], ?_,
    by simp [Rope3D.initRope], by simp [Rope3D.initRope],
    by simp [Rope3D.initRope], by simp [Rope3D.initRope]⟩
  intro i hi
  simp only [Rope3D.initRope, List.getD_eq_getElem?_getD, List.getElem?_map,
    List.getElem?_range hi, Option.map_some', Option.getD_some]

/-- Witness for C9 at a concrete configuration (2 segments, length 2):
the third seeded point sits two units below the anchor. -/
theorem spec_C9_initRope_witness :
    (Rope3D.initRope
        { segments := 2, ropeLength := 2, gravity := 0, iter := 1, damping := 0,
          sqrt := Rope3D.sqrtToy } 0 0 0
        { positions := [], prevPositions := [], isSleeping := true, sleepCounter := 5,
          lastInputs := none }).positions.getD 2 Rope3D.V3.zero = ⟨0, -2, 0⟩ := by
  have h := (spec_C9_initRope
    { segments := 2, ropeLength := 2, gravity := 0, iter := 1, damping := 0,
      sqrt := Rope3D.sqrtToy } 0 0 0
    { positions := [], prevPositions := [], isSleeping := true, sleepCounter := 5,
      lastInputs := none }).2.1 2 (by decide)
  rw [h]
  norm_num [Rope3D.V3.mk.injEq]

namespace Rope3D

theorem passAux_eq_foldl (sq : SqrtFn) (restLen : ℚ) (n : ℕ) :
    ∀ (cnt i : ℕ) (pos : List V3),
      passAux sq restLen n i cnt pos =
        (List.range' i cnt).foldl (fun ps j => solveSegment sq restLen n j ps) pos := by
  intro cnt
  induction cnt with
  | zero => intro i pos; rfl
  | succ c ih =>
      intro i pos
      rw [List.range'_succ]
      simp only [passAux, List.foldl_cons]
      exact ih (i + 1) _

theorem constraintIter_eq_iterate (sq : SqrtFn) (restLen : ℚ) (n : ℕ) :
    ∀ (k : ℕ) (pos : List V3),
      constraintIter sq restLen n k pos = (constraintPass sq restLen n)^[k] pos := by
  intro k
  induction k with
  | zero => intro pos; rfl
  | succ k ih =>
      intro pos
      simp only [constraintIter, Function.iterate_succ_apply]
      exact ih _

theorem solveSegment_eq_spec (sq : SqrtFn) (restLen : ℚ) (n i : ℕ) (pos : List V3) :
    solveSegment sq restLen n i pos = solveSegmentSpec sq restLen n i pos := by
  unfold solveSegment solveSegmentSpec
  dsimp only [V3.add, V3.sub, V3.smul]
  have hnn : (0 : ℚ) ≤ sq.f
      (((pos.getD (i + 1) V3.zero).x - (pos.getD i V3.zero).x) *
          ((pos.getD (i + 1) V3.zero).x - (pos.getD i V3.zero).x) +
        ((pos.getD (i + 1) V3.zero).y - (pos.getD i V3.zero).y) *
          ((pos.getD (i + 1) V3.zero).y - (pos.getD i V3.zero).y) +
        ((pos.getD (i + 1) V3.zero).z - (pos.getD i V3.zero).z) *
          ((pos.getD (i + 1) V3.zero).z - (pos.getD i V3.zero).z)) :=
    sq.f_nonneg _
      (add_nonneg (add_nonneg (mul_self_nonneg _) (mul_self_nonneg _)) (mul_self_nonneg _))
  rcases hnn.eq_or_gt with heq | hlt
  · rw [if_pos heq, if_neg (by rw [heq]; exact lt_irrefl (0 : ℚ))]
  · rw [if_neg hlt.ne', if_pos hlt]
    split_ifs with h0 hn1
    · congr 1
      simp only [V3.mk.injEq]
      refine ⟨by ring, by ring, by ring⟩
    · congr 1
      simp only [V3.mk.injEq]
      refine ⟨by ring, by ring, by ring⟩
    · congr 1
      · congr 1
        simp only [V3.mk.injEq]
        refine ⟨by ring, by ring, by ring⟩
      · simp only [V3.mk.injEq]
        refine ⟨by ring, by ring, by ring⟩

end Rope3D

/-- C3: each constraint-solver segment update of `step` behaves exactly
as specified: with positive inter-point distance `dist` and correction
factor `(dist - restLength) / dist`, segment `0` displaces only point
`1` by the full correction, segment `N-1` displaces only point `N-1`,
and interior segments displace both their points by half the correction
in opposite directions; a pass processes segments `0 .. N-1` in index
order (a left fold, in place), and `step` runs exactly
`max 1 iterations` such passes on the pinned post-Verlet chain. -/
theorem spec_C3_constraint_rule :
    (∀ (sq : Rope3D.SqrtFn) (restLen : ℚ) (n i : ℕ) (pos : List Rope3D.V3),
        Rope3D.solveSegment sq restLen n i pos =
          Rope3D.solveSegmentSpec sq restLen n i pos) ∧
    (∀ (sq : Rope3D.SqrtFn) (restLen : ℚ) (n : ℕ) (pos : List Rope3D.V3),
        Rope3D.constraintPass sq restLen n pos =
          (List.range n).foldl (fun ps j => Rope3D.solveSegment sq restLen n j ps) pos) ∧
    (∀ (sq : Rope3D.SqrtFn) (restLen : ℚ) (n k : ℕ) (pos : List Rope3D.V3),
        Rope3D.constraintIter sq restLen n k pos =
          (Rope3D.constraintPass sq restLen n)^[k] pos) ∧
    (∀ (cfg : Rope3D.Config) (dt tX tY tZ bX bY bZ : ℚ) (pos prev : List Rope3D.V3),
        1 ≤ pos.length - 1 →
        (Rope3D.step cfg dt tX tY tZ bX bY bZ pos prev).1 =
          Rope3D.constraintIter cfg.sqrt
            (cfg.ropeLength / ((pos.length - 1 : ℕ) : ℚ)) (pos.length - 1)
            (max 1 cfg.iter).toNat
            ((Rope3D.verletAux cfg.damping cfg.gravity dt 1 (pos.length - 1 - 1)
                (pos.set (pos.length - 1) ⟨bX, bY, bZ⟩,
                  prev.set (pos.length - 1) ⟨bX, bY, bZ⟩, 0)).1.set 0 ⟨tX, tY, tZ⟩)) := by
  refine ⟨Rope3D.solveSegment_eq_spec, ?_, ?_, ?_⟩
  · intro sq restLen n pos
    rw [Rope3D.constraintPass, Rope3D.passAux_eq_foldl, List.range_eq_range']
  · intro sq restLen n k pos
    exact Rope3D.constraintIter_eq_iterate sq restLen n k pos
  · intro cfg dt tX tY tZ bX bY bZ pos prev hn
    simp only [Rope3D.step]
    rw [if_neg (by omega)]

/-- Witness for C3's step clause on the concrete 2-segment chain. -/
theorem spec_C3_constraint_rule_witness :
    (Rope3D.step Rope3D.cfgTest 0 0 0 0 0 (-2) 0 Rope3D.chainTest Rope3D.chainTest).1 =
      Rope3D.constraintIter Rope3D.cfgTest.sqrt
        (Rope3D.cfgTest.ropeLength / ((Rope3D.chainTest.length - 1 : ℕ) : ℚ))
        (Rope3D.chainTest.length - 1) (max 1 Rope3D.cfgTest.iter).toNat
        ((Rope3D.verletAux Rope3D.cfgTest.damping Rope3D.cfgTest.gravity 0 1
            (Rope3D.chainTest.length - 1 - 1)
            (Rope3D.chainTest.set (Rope3D.chainTest.length - 1) ⟨0, -2, 0⟩,
              Rope3D.chainTest.set (Rope3D.chainTest.length - 1) ⟨0, -2, 0⟩,
              0)).1.set 0 ⟨0, 0, 0⟩) :=
  spec_C3_constraint_rule.2.2.2 Rope3D.cfgTest 0 0 0 0 0 (-2) 0 Rope3D.chainTest
    Rope3D.chainTest (by decide)

namespace Rope3D

theorem verletBody_fst_getD_ne (damping g dt : ℚ) (i j : ℕ) (s : List V3 × List V3 × ℚ)
    (d : V3) (h : i ≠ j) :
    (verletBody damping g dt i s).1.getD j d = s.1.getD j d := by
  simp only [verletBody]
  exact getD_set_ne h _ _

theorem verletBody_snd_getD_ne (damping g dt : ℚ) (i j : ℕ) (s : List V3 × List V3 × ℚ)
    (d : V3) (h : i ≠ j) :
    (verletBody damping g dt i s).2.1.getD j d = s.2.1.getD j d := by
  simp only [verletBody]
  exact getD_set_ne h _ _

theorem verletBody_fst_getD_self (damping g dt : ℚ) (j : ℕ) (s : List V3 × List V3 × ℚ)
    (h : j < s.1.length) :
    (verletBody damping g dt j s).1.getD j V3.zero =
      verletSpecPoint damping g dt (s.1.getD j V3.zero) (s.2.1.getD j V3.zero) := by
  simp only [verletBody]
  rw [getD_set_self h]
  rfl

theorem verletBody_snd_getD_self (damping g dt : ℚ) (j : ℕ) (s : List V3 × List V3 × ℚ)
    (h : j < s.2.1.length) :
    (verletBody damping g dt j s).2.1.getD j V3.zero = s.1.getD j V3.zero := by
  simp only [verletBody]
  rw [getD_set_self h]

theorem verletAux_getD_in (damping g dt : ℚ) :
    ∀ (cnt i : ℕ) (s : List V3 × List V3 × ℚ) (j : ℕ),
      i ≤ j → j < i + cnt → j < s.1.length → j < s.2.1.length →
      (verletAux damping g dt i cnt s).1.getD j V3.zero =
        verletSpecPoint damping g dt (s.1.getD j V3.zero) (s.2.1.getD j V3.zero) ∧
      (verletAux damping g dt i cnt s).2.1.getD j V3.zero = s.1.getD j V3.zero := by
  intro cnt
  induction cnt with
  | zero => intro i s j h1 h2 _ _; omega
  | succ c ih =>
      intro i s j h1 h2 hl1 hl2
      simp only [verletAux]
      rcases h1.eq_or_lt with he | hlt
      · subst he
        have hout := verletAux_getD_out damping g dt c (i + 1) (verletBody damping g dt i s)
          i V3.zero (Or.inl (by omega))
        rw [hout.1, hout.2, verletBody_fst_getD_self damping g dt i s hl1,
          verletBody_snd_getD_self damping g dt i s hl2]
        exact ⟨rfl, rfl⟩
      · have hb1 : j < (verletBody damping g dt i s).1.length := by
          simp only [verletBody, List.length_set]
          exact hl1
        have hb2 : j < (verletBody damping g dt i s).2.1.length := by
          simp only [verletBody, List.length_set]
          exact hl2
        have hr := ih (i + 1) (verletBody damping g dt i s) j (by omega) (by omega) hb1 hb2
        rw [hr.1, hr.2, verletBody_fst_getD_ne damping g dt i j s V3.zero (by omega),
          verletBody_snd_getD_ne damping g dt i j s V3.zero (by omega)]
        exact ⟨rfl, rfl⟩

theorem if_gt_eq_max (a b : ℚ) : (if b > a then b else a) = max a b := by
  rcases le_or_lt b a with h | h
  · rw [if_neg (not_lt.2 h), max_eq_left h]
  · rw [if_pos h, max_eq_right h.le]

theorem verletAux_maxVel (damping g dt : ℚ) :
    ∀ (cnt i : ℕ) (pos prev : List V3) (m : ℚ),
      (verletAux damping g dt i cnt (pos, prev, m)).2.2 =
        ((List.range' i cnt).map (windowVMag damping pos prev)).foldl max m := by
  intro cnt
  induction cnt with
  | zero => intro i pos prev m; rfl
  | succ c ih =>
      intro i pos prev m
      rw [List.range'_succ]
      simp only [List.map_cons, List.foldl_cons]
      have hbody : verletBody damping g dt i (pos, prev, m) =
          (pos.set i (verletSpecPoint damping g dt (pos.getD i V3.zero)
              (prev.getD i V3.zero)),
            prev.set i (pos.getD i V3.zero),
            max m (windowVMag damping pos prev i)) := by
        simp only [verletBody, verletSpecPoint, vVec, windowVMag, vMag3]
        rw [if_gt_eq_max]
      simp only [verletAux, hbody]
      rw [ih]
      congr 1
      apply List.map_congr_left
      intro a ha
      rcases List.mem_range'.1 ha with ⟨k, _, hk⟩
      have hne : i ≠ a := by omega
      simp only [windowVMag]
      rw [getD_set_ne hne, getD_set_ne hne]

theorem foldl_max_init : ∀ (l : List ℚ) (m : ℚ), m ≤ l.foldl max m := by
  intro l
  induction l with
  | nil => intro m; exact le_refl m
  | cons a l ih =>
      intro m
      simp only [List.foldl_cons]
      exact le_trans (le_max_left m a) (ih (max m a))

theorem foldl_max_le : ∀ (l : List ℚ) (m x : ℚ), x ∈ l → x ≤ l.foldl max m := by
  intro l
  induction l with
  | nil => intro m x hx; exact absurd hx (List.not_mem_nil x)
  | cons a l ih =>
      intro m x hx
      simp only [List.foldl_cons]
      rcases List.mem_cons.1 hx with rfl | hx
      · exact le_trans (le_max_right m x) (foldl_max_init l (max m x))
      · exact ih (max m a) x hx

theorem foldl_max_cases : ∀ (l : List ℚ) (m : ℚ), l.foldl max m = m ∨ l.foldl max m ∈ l := by
  intro l
  induction l with
  | nil => intro m; exact Or.inl rfl
  | cons a l ih =>
      intro m
      simp only [List.foldl_cons]
      rcases ih (max m a) with h | h
      · rcases max_choice m a with hm | hm
        · exact Or.inl (h.trans hm)
        · exact Or.inr (by rw [h, hm]; exact List.mem_cons_self a l)
      · exact Or.inr (List.mem_cons_of_mem a h)

end Rope3D

/-- C4: inside `step`, the motion update treats every free point
`i ∈ 1..N-1` exactly as specified: writing `v` for the per-axis damped
velocity `(current[i] - previous[i]) * damping`, the update stores the
pre-update `current[i]` into `previous[i]` (still visible in the
returned previous positions, which the constraint phase does not touch),
adds `v` on every axis plus `gravity * dt^2` on the y axis only, and the
value returned by `step` is the running maximum over all free points of
the largest absolute per-axis velocity component (`0` when there are no
free points). -/
theorem spec_C4_motion_update (cfg : Rope3D.Config) (dt tX tY tZ bX bY bZ : ℚ)
    (pos prev : List Rope3D.V3)
    (hn : 1 ≤ pos.length - 1) (hp : prev.length = pos.length) :
    (∀ i, 1 ≤ i → i < pos.length - 1 →
      (Rope3D.step cfg dt tX tY tZ bX bY bZ pos prev).2.1.getD i Rope3D.V3.zero =
        pos.getD i Rope3D.V3.zero) ∧
    (∀ i, 1 ≤ i → i < pos.length - 1 →
      (Rope3D.verletAux cfg.damping cfg.gravity dt 1 (pos.length - 1 - 1)
          (pos.set (pos.length - 1) ⟨bX, bY, bZ⟩,
            prev.set (pos.length - 1) ⟨bX, bY, bZ⟩, 0)).1.getD i Rope3D.V3.zero =
        Rope3D.verletSpecPoint cfg.damping cfg.gravity dt (pos.getD i Rope3D.V3.zero)
          (prev.getD i Rope3D.V3.zero)) ∧
    (Rope3D.step cfg dt tX tY tZ bX bY bZ pos prev).2.2 =
      (Rope3D.verletAux cfg.damping cfg.gravity dt 1 (pos.length - 1 - 1)
          (pos.set (pos.length - 1) ⟨bX, bY, bZ⟩,
            prev.set (pos.length - 1) ⟨bX, bY, bZ⟩, 0)).2.2 ∧
    (∀ i, 1 ≤ i → i < pos.length - 1 →
      Rope3D.windowVMag cfg.damping pos prev i ≤
        (Rope3D.step cfg dt tX tY tZ bX bY bZ pos prev).2.2) ∧
    ((Rope3D.step cfg dt tX tY tZ bX bY bZ pos prev).2.2 = 0 ∨
      ∃ i, 1 ≤ i ∧ i < pos.length - 1 ∧
        (Rope3D.step cfg dt tX tY tZ bX bY bZ pos prev).2.2 =
          Rope3D.windowVMag cfg.damping pos prev i) := by
  have hstep2 : (Rope3D.step cfg dt tX tY tZ bX bY bZ pos prev).2.1 =
      (Rope3D.verletAux cfg.damping cfg.gravity dt 1 (pos.length - 1 - 1)
        (pos.set (pos.length - 1) ⟨bX, bY, bZ⟩,
          prev.set (pos.length - 1) ⟨bX, bY, bZ⟩, 0)).2.1.set 0 ⟨tX, tY, tZ⟩ := by
    simp only [Rope3D.step]
    rw [if_neg (by omega)]
  have hstep3 : (Rope3D.step cfg dt tX tY tZ bX bY bZ pos prev).2.2 =
      (Rope3D.verletAux cfg.damping cfg.gravity dt 1 (pos.length - 1 - 1)
        (pos.set (pos.length - 1) ⟨bX, bY, bZ⟩,
          prev.set (pos.length - 1) ⟨bX, bY, bZ⟩, 0)).2.2 := by
    simp only [Rope3D.step]
    rw [if_neg (by omega)]
  have hwin : ∀ i, 1 ≤ i → i < pos.length - 1 →
      Rope3D.windowVMag cfg.damping (pos.set (pos.length - 1) ⟨bX, bY, bZ⟩)
        (prev.set (pos.length - 1) ⟨bX, bY, bZ⟩) i =
      Rope3D.windowVMag cfg.damping pos prev i := by
    intro i h1 h2
    simp only [Rope3D.windowVMag]
    rw [Rope3D.getD_set_ne (by omega), Rope3D.getD_set_ne (by omega)]
  have hin : ∀ i, 1 ≤ i → i < pos.length - 1 →
      (Rope3D.verletAux cfg.damping cfg.gravity dt 1 (pos.length - 1 - 1)
          (pos.set (pos.length - 1) ⟨bX, bY, bZ⟩,
            prev.set (pos.length - 1) ⟨bX, bY, bZ⟩, 0)).1.getD i Rope3D.V3.zero =
        Rope3D.verletSpecPoint cfg.damping cfg.gravity dt
          ((pos.set (pos.length - 1) ⟨bX, bY, bZ⟩).getD i Rope3D.V3.zero)
          ((prev.set (pos.length - 1) ⟨bX, bY, bZ⟩).getD i Rope3D.V3.zero) ∧
      (Rope3D.verletAux cfg.damping cfg.gravity dt 1 (pos.length - 1 - 1)
          (pos.set (pos.length - 1) ⟨bX, bY, bZ⟩,
            prev.set (pos.length - 1) ⟨bX, bY, bZ⟩, 0)).2.1.getD i Rope3D.V3.zero =
        (pos.set (pos.length - 1) ⟨bX, bY, bZ⟩).getD i Rope3D.V3.zero := by
    intro i h1 h2
    exact Rope3D.verletAux_getD_in cfg.damping cfg.gravity dt (pos.length - 1 - 1) 1
      (pos.set (pos.length - 1) ⟨bX, bY, bZ⟩, prev.set (pos.length - 1) ⟨bX, bY, bZ⟩, 0)
      i (by omega) (by omega)
      (by simp only [List.length_set]; omega)
      (by simp only [List.length_set, hp]; omega)
  refine ⟨?_, ?_, hstep3, ?_, ?_⟩
  · intro i h1 h2
    rw [hstep2, Rope3D.getD_set_ne (by omega), (hin i h1 h2).2,
      Rope3D.getD_set_ne (by omega)]
  · intro i h1 h2
    rw [(hin i h1 h2).1, Rope3D.getD_set_ne (by omega), Rope3D.getD_set_ne (by omega)]
  · intro i h1 h2
    rw [hstep3, Rope3D.verletAux_maxVel]
    have hmem : i ∈ List.range' 1 (pos.length - 1 - 1) :=
      List.mem_range'.2 ⟨i - 1, by omega, by omega⟩
    have hle := Rope3D.foldl_max_le
      ((List.range' 1 (pos.length - 1 - 1)).map
        (Rope3D.windowVMag cfg.damping (pos.set (pos.length - 1) ⟨bX, bY, bZ⟩)
          (prev.set (pos.length - 1) ⟨bX, bY, bZ⟩))) 0
      (Rope3D.windowVMag cfg.damping (pos.set (pos.length - 1) ⟨bX, bY, bZ⟩)
        (prev.set (pos.length - 1) ⟨bX, bY, bZ⟩) i)
      (List.mem_map_of_mem _ hmem)
    rw [hwin i h1 h2] at hle
    exact hle
  · rw [hstep3, Rope3D.verletAux_maxVel]
    rcases Rope3D.foldl_max_cases
      ((List.range' 1 (pos.length - 1 - 1)).map
        (Rope3D.windowVMag cfg.damping (pos.set (pos.length - 1) ⟨bX, bY, bZ⟩)
          (prev.set (pos.length - 1) ⟨bX, bY, bZ⟩))) 0 with h | h
    · exact Or.inl h
    · rcases List.mem_map.1 h with ⟨i, hi, heq⟩
      rcases List.mem_range'.1 hi with ⟨k, hk, hik⟩
      refine Or.inr ⟨i, by omega, by omega, ?_⟩
      rw [← heq, hwin i (by omega) (by omega)]

/-- Witness for C4: on the concrete 2-segment chain, the returned
previous position of the single free point is its pre-step current
position. -/
theorem spec_C4_motion_update_witness :
    (Rope3D.step Rope3D.cfgTest 0 0 0 0 0 (-2) 0 Rope3D.chainTest
        Rope3D.chainTest).2.1.getD 1 Rope3D.V3.zero =
      Rope3D.chainTest.getD 1 Rope3D.V3.zero :=
  (spec_C4_motion_update Rope3D.cfgTest 0 0 0 0 0 (-2) 0 Rope3D.chainTest
    Rope3D.chainTest (by decide) rfl).1 1 (by decide) (by decide)

/-- C6: on a frame where the system is asleep and an anchor or end
coordinate has moved beyond the `INPUT_EPS` tolerance since the previous
frame, the handler clears the sleep flag, resets the still-frame
counter, equates every previous position with the corresponding current
position (zero stored velocity), and runs physics that same frame with
an effective `dt` of `0` (regardless of the wall-clock delta). -/
theorem spec_C6_wake_transition (cfg : Rope3D.Config) (rawDt : ℚ)
    (top bottom : Rope3D.V3) (st : Rope3D.State)
    (hs : st.isSleeping = true)
    (hne : st.positions ≠ [])
    (hm : Rope3D.inputsMoved st.lastInputs top bottom = true) :
    Rope3D.frame cfg rawDt top bottom st =
      ({ positions := (Rope3D.step cfg 0 top.x top.y top.z bottom.x bottom.y bottom.z
            st.positions st.positions).1,
         prevPositions := (Rope3D.step cfg 0 top.x top.y top.z bottom.x bottom.y bottom.z
            st.positions st.positions).2.1,
         isSleeping := false,
         sleepCounter := 0,
         lastInputs := some (top, bottom) },
        (Rope3D.step cfg 0 top.x top.y top.z bottom.x bottom.y bottom.z
          st.positions st.positions).2.2,
        Rope3D.flat (Rope3D.step cfg 0 top.x top.y top.z bottom.x bottom.y bottom.z
          st.positions st.positions).1) := by
  have hempty : st.positions.isEmpty = false := by
    simp [List.isEmpty_iff, hne]
  simp [Rope3D.frame, hm, hs, hempty]

/-- Witness for C6: waking the concrete asleep chain by moving the
anchor one unit in x. -/
theorem spec_C6_wake_transition_witness :
    Rope3D.frame Rope3D.cfgTest (1 / 100) ⟨1, 0, 0⟩ ⟨0, -2, 0⟩ Rope3D.stAsleepTest =
      ({ positions := (Rope3D.step Rope3D.cfgTest 0 1 0 0 0 (-2) 0
            Rope3D.stAsleepTest.positions Rope3D.stAsleepTest.positions).1,
         prevPositions := (Rope3D.step Rope3D.cfgTest 0 1 0 0 0 (-2) 0
            Rope3D.stAsleepTest.positions Rope3D.stAsleepTest.positions).2.1,
         isSleeping := false,
         sleepCounter := 0,
         lastInputs := some (⟨1, 0, 0⟩, ⟨0, -2, 0⟩) },
        (Rope3D.step Rope3D.cfgTest 0 1 0 0 0 (-2) 0
          Rope3D.stAsleepTest.positions Rope3D.stAsleepTest.positions).2.2,
        Rope3D.flat (Rope3D.step Rope3D.cfgTest 0 1 0 0 0 (-2) 0
          Rope3D.stAsleepTest.positions Rope3D.stAsleepTest.positions).1) :=
  spec_C6_wake_transition Rope3D.cfgTest (1 / 100) ⟨1, 0, 0⟩ ⟨0, -2, 0⟩
    Rope3D.stAsleepTest rfl (by simp [Rope3D.stAsleepTest, Rope3D.chainTest])
    (by norm_num [Rope3D.inputsMoved, Rope3D.stAsleepTest, Rope3D.INPUT_EPS])

namespace Rope3D

theorem frame_asleep_unmoved (cfg : Config) (rawDt : ℚ) (top bottom : V3) (st : State)
    (hs : st.isSleeping = true) (hne : st.positions ≠ [])
    (hm : inputsMoved st.lastInputs top bottom = false) :
    frame cfg rawDt top bottom st =
      ({ st with lastInputs := some (top, bottom) }, 0, flat st.positions) := by
  have hempty : st.positions.isEmpty = false := by
    simp [List.isEmpty_iff, hne]
  simp [frame, hs, hm, hempty]

theorem frame_awake_unmoved (cfg : Config) (rawDt : ℚ) (top bottom : V3) (st : State)
    (hs : st.isSleeping = false) (hne : st.positions ≠ [])
    (hm : inputsMoved st.lastInputs top bottom = false) :
    (frame cfg rawDt top bottom st).1.positions ≠ [] ∧
    ((frame cfg rawDt top bottom st).2.1 < VEL_EPS →
      (frame cfg rawDt top bottom st).1.sleepCounter = st.sleepCounter + 1 ∧
      ((frame cfg rawDt top bottom st).1.isSleeping = true ↔
        SLEEP_FRAMES ≤ st.sleepCounter + 1)) := by
  have hempty : st.positions.isEmpty = false := by
    simp [List.isEmpty_iff, hne]
  have hne2 : ∀ dtv : ℚ, (step cfg dtv top.x top.y top.z bottom.x bottom.y bottom.z
      st.positions st.prevPositions).1 ≠ [] := by
    intro dtv
    have hlen := (step_length cfg dtv top.x top.y top.z bottom.x bottom.y bottom.z
      st.positions st.prevPositions).1
    rw [← List.length_pos] at hne ⊢
    omega
  by_cases hv : (step cfg (if (20 : ℚ)⁻¹ < rawDt then (20 : ℚ)⁻¹ else rawDt)
      top.x top.y top.z bottom.x bottom.y bottom.z st.positions st.prevPositions).2.2 <
      VEL_EPS
  · by_cases h6 : SLEEP_FRAMES ≤ st.sleepCounter + 1
    · simp [frame, hs, hm, hempty, hv, h6, hne2]
    · simp [frame, hs, hm, hempty, hv, h6, hne2]
  · simp [frame, hs, hm, hempty, hv, hne2]

theorem stillRun_unmovedRun (cfg : Config) :
    ∀ (l : List (ℚ × V3 × V3)) (st : State),
      stillRun cfg st l = true → unmovedRun cfg st l = true := by
  intro l
  induction l with
  | nil => intro st _; rfl
  | cons f l ih =>
      intro st h
      simp only [stillRun, Bool.and_eq_true] at h
      simp only [unmovedRun, Bool.and_eq_true]
      exact ⟨h.1.1, ih _ h.2⟩

theorem runFrames_asleep_unmoved (cfg : Config) :
    ∀ (l : List (ℚ × V3 × V3)) (st : State),
      st.isSleeping = true → st.positions ≠ [] → unmovedRun cfg st l = true →
      (runFrames cfg l st).isSleeping = true ∧
      (runFrames cfg l st).positions = st.positions ∧
      (runFrames cfg l st).prevPositions = st.prevPositions := by
  intro l
  induction l with
  | nil => intro st hs _ _; exact ⟨hs, rfl, rfl⟩
  | cons f l ih =>
      intro st hs hne h
      simp only [unmovedRun, Bool.and_eq_true, Bool.not_eq_eq_eq_not, Bool.not_true] at h
      have hfr := frame_asleep_unmoved cfg f.1 f.2.1 f.2.2 st hs hne h.1
      simp only [runFrames, hfr]
      have := ih { st with lastInputs := some (f.2.1, f.2.2) } hs hne (by
        have := h.2
        rw [hfr] at this
        exact this)
      exact this

theorem stillRun_progress (cfg : Config) :
    ∀ (l : List (ℚ × V3 × V3)) (st : State),
      st.positions ≠ [] → stillRun cfg st l = true →
      (runFrames cfg l st).positions ≠ [] ∧
      ((runFrames cfg l st).isSleeping = true ∨
        ((runFrames cfg l st).isSleeping = false ∧ st.isSleeping = false ∧
          (runFrames cfg l st).sleepCounter = st.sleepCounter + l.length ∧
          (l.length = 0 ∨ (runFrames cfg l st).sleepCounter < SLEEP_FRAMES))) := by
  intro l
  induction l with
  | nil =>
      intro st hne _
      refine ⟨hne, ?_⟩
      cases hsl : st.isSleeping
      · exact Or.inr ⟨hsl, rfl, rfl, Or.inl rfl⟩
      · exact Or.inl hsl
  | cons f l ih =>
      intro st hne h
      have h' := h
      simp only [stillRun, Bool.and_eq_true, Bool.not_eq_eq_eq_not, Bool.not_true,
        decide_eq_true_eq] at h'
      obtain ⟨⟨hm, hv⟩, hrest⟩ := h'
      cases hsl : st.isSleeping
      · -- awake frame
        have hfa := frame_awake_unmoved cfg f.1 f.2.1 f.2.2 st hsl hne hm
        have hc := hfa.2 hv
        have hr := ih (frame cfg f.1 f.2.1 f.2.2 st).1 hfa.1 hrest
        simp only [runFrames]
        refine ⟨hr.1, ?_⟩
        rcases hr.2 with hslp | ⟨hawk, hawk0, hcnt, hbnd⟩
        · exact Or.inl hslp
        · have h6 : ¬ SLEEP_FRAMES ≤ st.sleepCounter + 1 := by
            intro hcon
            rw [← hc.2] at hcon
            rw [hcon] at hawk0
            exact Bool.noConfusion hawk0
          refine Or.inr ⟨hawk, by first | exact hsl | rfl | trivial, ?_, ?_⟩
          · rw [hcnt, hc.1]
            simp [List.length_cons]
            omega
          · refine Or.inr ?_
            rcases hbnd with h0 | hlt
            · rw [hcnt, h0, hc.1]
              omega
            · exact hlt
      · -- asleep: stays asleep through the whole still run
        have hall : unmovedRun cfg st (f :: l) = true := stillRun_unmovedRun cfg (f :: l) st h
        have := runFrames_asleep_unmoved cfg (f :: l) st hsl hne hall
        refine ⟨?_, Or.inl this.1⟩
        rw [this.2.1]
        exact hne

end Rope3D

/-- C5: starting awake, if for at least `SLEEP_FRAMES` (6) consecutive
frames the inputs stay within the `INPUT_EPS` tolerance of the previous
frame and the returned max velocity stays below `VEL_EPS` (1e-3), then
the sleep flag is set; afterwards, over any further frames whose inputs
stay within tolerance, the system stays asleep and both position
sequences stay bit-for-bit unchanged; moreover on every single asleep
frame with unmoved inputs the handler leaves the positions untouched and
returns the max velocity `0` initialised before the (skipped) call to
`step`. -/
theorem spec_C5_sleep_correctness (cfg : Rope3D.Config) (st : Rope3D.State)
    (l l2 : List (ℚ × Rope3D.V3 × Rope3D.V3))
    (hawake : st.isSleeping = false)
    (hne : st.positions ≠ [])
    (hlen : Rope3D.SLEEP_FRAMES ≤ l.length)
    (hstill : Rope3D.stillRun cfg st l = true)
    (hunmoved : Rope3D.unmovedRun cfg (Rope3D.runFrames cfg l st) l2 = true) :
    (Rope3D.runFrames cfg l st).isSleeping = true ∧
    (Rope3D.runFrames cfg l2 (Rope3D.runFrames cfg l st)).positions =
      (Rope3D.runFrames cfg l st).positions ∧
    (Rope3D.runFrames cfg l2 (Rope3D.runFrames cfg l st)).prevPositions =
      (Rope3D.runFrames cfg l st).prevPositions ∧
    (Rope3D.runFrames cfg l2 (Rope3D.runFrames cfg l st)).isSleeping = true ∧
    (∀ (rawDt : ℚ) (top bottom : Rope3D.V3) (s : Rope3D.State),
      s.isSleeping = true → s.positions ≠ [] →
      Rope3D.inputsMoved s.lastInputs top bottom = false →
      (Rope3D.frame cfg rawDt top bottom s).1.positions = s.positions ∧
      (Rope3D.frame cfg rawDt top bottom s).2.1 = 0) := by
  have hp := Rope3D.stillRun_progress cfg l st hne hstill
  have h6 : Rope3D.SLEEP_FRAMES = 6 := rfl
  have hsleep : (Rope3D.runFrames cfg l st).isSleeping = true := by
    rcases hp.2 with h | ⟨_, _, hcnt, hbnd⟩
    · exact h
    · exfalso
      rcases hbnd with h0 | hlt
      · omega
      · omega
  have hrest := Rope3D.runFrames_asleep_unmoved cfg l2 (Rope3D.runFrames cfg l st)
    hsleep hp.1 hunmoved
  refine ⟨hsleep, hrest.2.1, hrest.2.2, hrest.1, ?_⟩
  intro rawDt top bottom s hs hsne hm
  have hfr := Rope3D.frame_asleep_unmoved cfg rawDt top bottom s hs hsne hm
  exact ⟨by rw [hfr], by rw [hfr]⟩

/-- Witness for C5: the settled 2-segment chain falls asleep after six
still frames. -/
theorem spec_C5_sleep_correctness_witness :
    (Rope3D.runFrames Rope3D.cfgTest
      [(1 / 100, ⟨0, 0, 0⟩, ⟨0, -2, 0⟩), (1 / 100, ⟨0, 0, 0⟩, ⟨0, -2, 0⟩),
       (1 / 100, ⟨0, 0, 0⟩, ⟨0, -2, 0⟩), (1 / 100, ⟨0, 0, 0⟩, ⟨0, -2, 0⟩),
       (1 / 100, ⟨0, 0, 0⟩, ⟨0, -2, 0⟩), (1 / 100, ⟨0, 0, 0⟩, ⟨0, -2, 0⟩)]
      Rope3D.stTest).isSleeping = true :=
  (spec_C5_sleep_correctness Rope3D.cfgTest Rope3D.stTest
    [(1 / 100, ⟨0, 0, 0⟩, ⟨0, -2, 0⟩), (1 / 100, ⟨0, 0, 0⟩, ⟨0, -2, 0⟩),
     (1 / 100, ⟨0, 0, 0⟩, ⟨0, -2, 0⟩), (1 / 100, ⟨0, 0, 0⟩, ⟨0, -2, 0⟩),
     (1 / 100, ⟨0, 0, 0⟩, ⟨0, -2, 0⟩), (1 / 100, ⟨0, 0, 0⟩, ⟨0, -2, 0⟩)]
    [(1 / 100, ⟨0, 0, 0⟩, ⟨0, -2, 0⟩)]
    rfl
    (by simp [Rope3D.stTest, Rope3D.chainTest])
    (by decide)
    (by norm_num [Rope3D.stillRun, Rope3D.runFrames, Rope3D.frame, Rope3D.step,
      Rope3D.verletAux, Rope3D.verletBody, Rope3D.constraintIter, Rope3D.constraintPass,
      Rope3D.passAux, Rope3D.solveSegment, Rope3D.sqrtToy, Rope3D.V3.zero,
      Rope3D.inputsMoved, Rope3D.initRope, Rope3D.flat, Rope3D.INPUT_EPS, Rope3D.VEL_EPS,
      Rope3D.SLEEP_FRAMES, Rope3D.cfgTest, Rope3D.stTest, Rope3D.chainTest])
    (by norm_num [Rope3D.unmovedRun, Rope3D.runFrames, Rope3D.frame, Rope3D.step,
      Rope3D.verletAux, Rope3D.verletBody, Rope3D.constraintIter, Rope3D.constraintPass,
      Rope3D.passAux, Rope3D.solveSegment, Rope3D.sqrtToy, Rope3D.V3.zero,
      Rope3D.inputsMoved, Rope3D.initRope, Rope3D.flat, Rope3D.INPUT_EPS, Rope3D.VEL_EPS,
      Rope3D.SLEEP_FRAMES, Rope3D.cfgTest, Rope3D.stTest, Rope3D.chainTest])).1
